import Mathlib

/-!
Verification of the treasury-transfer indexer (src/axieScore.ts, indexer part).

The TypeScript source is shallowly embedded: pure helpers become Lean
functions, the external collaborators (ethers.js checksum and hashing,
the JSON-RPC provider, the Prisma store's failure behaviour) become an
explicit environment record, and the stateful indexing loop becomes a
fold over an explicit run state (per-token totals, record counter,
persisted store).  Machine integers of the source (JS numbers used as
block numbers) are modelled as Int, bigint amounts as Nat.
-/

/-- ASCII-lowercasing of a string, modelling JavaScript's
`String.prototype.toLowerCase` on the (ASCII) address strings the
indexer feeds it. -/
def toLowerStr (s : String) : String := String.mk (s.data.map Char.toLower)

/-- Tracked token configuration entry, from the `TOKENS` constant. -/
structure TokenDescriptor where
  symbol : String
  address : String
  decimals : Nat
deriving DecidableEq, Repr

/-- The `TOKENS` constant of the source: AXS and WETH. -/
def TOKENS : List TokenDescriptor :=
  [{ symbol := "AXS",
     address := "0x97a9107c1793bc407d6f527b77e7fff4d812bece",
     decimals := 18 },
   { symbol := "WETH",
     address := "0xc99a6a985ed2cac1ef41640596c5a5f9f4e19ef5",
     decimals := 18 }]

/-- The `TREASURY_ADDRESS` constant (the source lowercases the literal). -/
def TREASURY_ADDRESS : String :=
  toLowerStr ("0x245db945c485b68fdc429e4f7085a1761aa4d45d")

/-- The `PROXY_ADDRESSES` constant (each literal lowercased, as in the source). -/
def PROXY_ADDRESSES : List String :=
  [toLowerStr ("0x3b3adf1422f84254b7fbb0e7ca62bd0865133fe3")]

/-- The `BLOCK_SPAN` getLogs window size constant. -/
def BLOCK_SPAN : Int := 400

/-- The `MAX_CONCURRENCY` batch size constant. -/
def MAX_CONCURRENCY : Nat := 2

/-- Block window as produced by `buildRangesForward`. -/
structure BlockRange where
  fromBlock : Int
  toBlock : Int
deriving DecidableEq, Repr

/-- Raw provider log entry (the fields of an ethers `Log` the indexer
reads: `address`, `topics`, `data`, `transactionHash`, `index`,
`blockNumber`). -/
structure RawLog where
  address : String
  topics : List String
  data : String
  transactionHash : String
  index : Nat
  blockNumber : Nat
deriving DecidableEq, Repr

/-- Transaction context; `fromAddr` models the `from` field of the
transaction returned by `provider.getTransaction`. -/
structure Tx where
  fromAddr : String
deriving DecidableEq, Repr

/-- Persisted `treasuryTransfer` record, with the fields the source's
`create` clause writes. -/
structure TransferRecord where
  txHash : String
  logIndex : Nat
  blockNumber : Nat
  tokenSymbol : String
  tokenAddress : String
  treasury : String
  proxyUsed : Bool
  txFrom : String
  transferFrom : String
  transferTo : String
  contributor : String
  amountRaw : String
  amountFormatted : String
deriving DecidableEq, Repr

/-- Argument record of a `provider.getLogs` call. -/
structure LogFilter where
  address : List String
  fromBlock : Int
  toBlock : Int
  topics : List (Option String)
deriving DecidableEq, Repr

/-- Environment of external collaborators: the ethers.js helpers whose
values the indexer never inspects (`getAddress` checksumming, `id`
hashing, `zeroPadValue`), the JSON-RPC provider, and a predicate saying
which `(txHash, logIndex)` persistence calls fail (modelling a thrown
Prisma error). -/
structure Env where
  getAddress : String → String
  ethersId : String → String
  zeroPadValue : String → Nat → String
  getLogs : LogFilter → Except String (List RawLog)
  getTransaction : String → Option Tx
  dbError : String → Nat → Bool

/-- Whether a `getLogs` result is a provider error (a rejected promise). -/
def isProviderError (e : Except String (List RawLog)) : Bool :=
  match e with
  | Except.error _ => true
  | Except.ok _ => false

/-- Loop body of `buildRangesForward`, with an explicit fuel argument
bounding the number of iterations of the source's `while` loop (the
loop advances by at least one block per iteration whenever
`span ≥ 1`, so `toBlock + 1 - fromBlock` iterations always suffice). -/
def buildRangesGo (toBlock span : Int) : Nat → Int → List BlockRange
  | 0, _ => []
  | fuel + 1, start =>
    if start ≤ toBlock then
      { fromBlock := start, toBlock := min (start + span - 1) toBlock } ::
        buildRangesGo toBlock span fuel (min (start + span - 1) toBlock + 1)
    else []

/-- The range planner `buildRangesForward(fromBlock, toBlock, span)`:
windows `[start, min(start + span - 1, toBlock)]`, the next window
starting one past the previous end, while `start ≤ toBlock`. -/
def buildRangesForward (fromBlock toBlock span : Int) : List BlockRange :=
  buildRangesGo toBlock span (toBlock + 1 - fromBlock).toNat fromBlock

/-- Loop body of `chunkArray`, with fuel bounding the iterations of the
source's `for (i = 0; i < arr.length; i += size)` loop. -/
def chunkArrayGo (size : Nat) : Nat → List α → List (List α)
  | _, [] => []
  | 0, _ :: _ => []
  | fuel + 1, a :: rest => (a :: rest).take size :: chunkArrayGo size fuel ((a :: rest).drop size)

/-- The `chunkArray` helper: successive slices of `size` elements. -/
def chunkArray (arr : List α) (size : Nat) : List (List α) :=
  chunkArrayGo size arr.length arr

/-- Last `n` characters of a string, modelling `topic.slice(-40)`. -/
def strSliceLast (n : Nat) (s : String) : String :=
  String.mk (s.data.drop (s.data.length - n))

/-- The `topicToAddress` helper: keep the last 40 hex characters of the
32-byte topic word and checksum the resulting 20-byte address with
`ethers.getAddress`. -/
def topicToAddress (env : Env) (topic : String) : String :=
  env.getAddress ("0x" ++ strSliceLast 40 topic)

/-- The `computeContributor` helper: if the transfer's source address is
a known proxy (lowercased membership test), credit the transaction
sender, otherwise the transfer's source address itself. -/
def computeContributor (env : Env) (transferFrom txFrom : String) : String :=
  let fromLower := toLowerStr transferFrom
  if PROXY_ADDRESSES.contains fromLower then env.getAddress txFrom
  else transferFrom

/-- Value of a hexadecimal digit character (0 for any other character). -/
def hexDigit (c : Char) : Nat :=
  if '0' ≤ c ∧ c ≤ '9' then c.toNat - 48
  else if 'a' ≤ c ∧ c ≤ 'f' then c.toNat - 97 + 10
  else if 'A' ≤ c ∧ c ≤ 'F' then c.toNat - 65 + 10
  else 0

/-- Parse a `0x`-prefixed hexadecimal string to a natural number,
modelling the source's `BigInt(log.data)` on provider-supplied data. -/
def parseHexNat (s : String) : Nat :=
  let body : List Char :=
    match s.data with
    | '0' :: 'x' :: rest => rest
    | l => l
  body.foldl (fun acc c => acc * 16 + hexDigit c) 0

/-- Left-pad a digit string with zeros until it is strictly longer than
`decimals`, as `ethers.formatUnits` does before inserting the point. -/
def padForDecimals (s : List Char) (decimals : Nat) : List Char :=
  List.replicate (decimals + 1 - s.length) '0' ++ s

/-- Drop trailing zero characters but keep at least one character. -/
def trimFracZeros (s : List Char) : List Char :=
  match (s.reverse.dropWhile (fun c => c = '0')).reverse with
  | [] => ['0']
  | l => l

/-- Decimal-shift formatting of a raw integer amount, modelling
`ethers.formatUnits(value, decimals)`: insert a decimal point
`decimals` digits from the right and trim trailing fractional zeros
down to at least one digit. -/
def formatUnits (value : Nat) (decimals : Nat) : String :=
  let digits := padForDecimals (toString value).data decimals
  let intPart := digits.take (digits.length - decimals)
  let fracPart := trimFracZeros (digits.drop (digits.length - decimals))
  String.mk (intPart ++ '.' :: fracPart)

/-- The `tokenAddrMap` of `indexRange`: tracked tokens keyed by
lowercased contract address. -/
def tokenAddrMap : List (String × TokenDescriptor) :=
  TOKENS.map fun t => (toLowerStr t.address, t)

/-- The `topicsFilter` of `indexRange`: Transfer signature in topic 0,
sender unconstrained, treasury (zero-padded to 32 bytes) in topic 2. -/
def topicsFilter (env : Env) : List (Option String) :=
  [some (env.ethersId ("Transfer(address,address,uint256)")), none,
   some (env.zeroPadValue TREASURY_ADDRESS 32)]

/-- The `getLogs` filter for one window, as built inside `indexRange`. -/
def windowFilter (env : Env) (r : BlockRange) : LogFilter :=
  { address := TOKENS.map TokenDescriptor.address,
    fromBlock := r.fromBlock,
    toBlock := r.toBlock,
    topics := topicsFilter env }

/-- Mutable state of one `indexRange` invocation: the
`totalWeiByToken` map (insertion-ordered, as a JS `Map`), the
`totalRecords` counter, and the Prisma store contents (a list of
persisted records in insertion order). -/
structure RunState where
  totalWeiByToken : List (String × Nat)
  totalRecords : Nat
  store : List TransferRecord
deriving DecidableEq, Repr

/-- Read a token's accumulated total, modelling
`totalWeiByToken.get(sym) ?? 0n`. -/
def getTotal (m : List (String × Nat)) (sym : String) : Nat :=
  (m.lookup sym).getD 0

/-- Write a token's accumulated total, modelling `Map.set`: replace the
existing entry in place, else append a new one. -/
def setTotal (m : List (String × Nat)) (sym : String) (v : Nat) : List (String × Nat) :=
  match m with
  | [] => [(sym, v)]
  | (k, x) :: rest => if k = sym then (k, v) :: rest else (k, x) :: setTotal rest sym v

/-- Whether the store already holds a record with the given
`(txHash, logIndex)` key. -/
def hasKey (s : List TransferRecord) (txHash : String) (logIndex : Nat) : Bool :=
  s.any fun q => q.txHash == txHash && q.logIndex == logIndex

/-- The Prisma `upsert` with `update: {}` keyed by
`txHash_logIndex`: on a key conflict nothing is mutated, otherwise the
record is inserted. -/
def upsert (s : List TransferRecord) (r : TransferRecord) : List TransferRecord :=
  if hasKey s r.txHash r.logIndex then s else s ++ [r]

/-- Body of the per-log loop of `indexRange` (source lines 298-361):
drop logs of untracked tokens, decode the transfer, skip the log when
the transaction lookup returns nothing, accumulate the per-token total,
then attempt the keyed upsert, counting it unless the persistence call
fails. -/
def processLog (env : Env) (st : RunState) (log : RawLog) : RunState :=
  match tokenAddrMap.lookup (toLowerStr log.address) with
  | none => st
  | some token =>
    let transferFrom := topicToAddress env (log.topics.getD 1 "")
    let transferTo := topicToAddress env (log.topics.getD 2 "")
    let valueWei := parseHexNat log.data
    match env.getTransaction log.transactionHash with
    | none => st
    | some tx =>
      let txFrom := env.getAddress tx.fromAddr
      let contributor := computeContributor env transferFrom txFrom
      let formatted := formatUnits valueWei token.decimals
      let proxyUsed := PROXY_ADDRESSES.contains (toLowerStr transferFrom)
      let prev := getTotal st.totalWeiByToken token.symbol
      let newTotals := setTotal st.totalWeiByToken token.symbol (prev + valueWei)
      let record : TransferRecord :=
        { txHash := log.transactionHash,
          logIndex := log.index,
          blockNumber := log.blockNumber,
          tokenSymbol := token.symbol,
          tokenAddress := token.address,
          treasury := transferTo,
          proxyUsed := proxyUsed,
          txFrom := txFrom,
          transferFrom := transferFrom,
          transferTo := transferTo,
          contributor := contributor,
          amountRaw := toString valueWei,
          amountFormatted := formatted }
      if env.dbError log.transactionHash log.index then
        { st with totalWeiByToken := newTotals }
      else
        { totalWeiByToken := newTotals,
          totalRecords := st.totalRecords + 1,
          store := upsert st.store record }

/-- The `Promise.all` of the window fetches of one batch: succeeds with
all windows' logs, fails if any window's fetch fails. -/
def fetchBatch (env : Env) : List BlockRange → Except String (List (List RawLog))
  | [] => Except.ok []
  | r :: rest =>
    match env.getLogs (windowFilter env r), fetchBatch env rest with
    | Except.error e, _ => Except.error e
    | Except.ok _, Except.error e => Except.error e
    | Except.ok logs, Except.ok tail => Except.ok (logs :: tail)

/-- One iteration of the batch loop of `indexRange`: fetch every window
of the batch; on any provider error the whole batch is caught and
contributes nothing; otherwise process every log of every window. -/
def processBatch (env : Env) (st : RunState) (batch : List BlockRange) : RunState :=
  match fetchBatch env batch with
  | Except.error _ => st
  | Except.ok results => results.foldl (fun acc logs => logs.foldl (processLog env) acc) st

/-- The `indexRange(fromBlock, toBlock)` entry point: tile the range
into `BLOCK_SPAN` windows, group them into `MAX_CONCURRENCY`-sized
batches, and drive the batch loop starting from fresh totals and
counter over the given initial store contents. -/
def indexRange (env : Env) (store0 : List TransferRecord) (fromBlock toBlock : Int) : RunState :=
  let ranges := buildRangesForward fromBlock toBlock BLOCK_SPAN
  let batches := chunkArray ranges MAX_CONCURRENCY
  batches.foldl (processBatch env)
    { totalWeiByToken := [], totalRecords := 0, store := store0 }

/-- Candidate record computed from one raw log: `some` exactly when the
token is tracked and the transaction lookup succeeds, with precisely
the fields the source's `create` clause writes.  The record depends
only on the log and the environment, not on the run state. -/
def logRecord (env : Env) (log : RawLog) : Option TransferRecord :=
  match tokenAddrMap.lookup (toLowerStr log.address) with
  | none => none
  | some token =>
    let transferFrom := topicToAddress env (log.topics.getD 1 "")
    let transferTo := topicToAddress env (log.topics.getD 2 "")
    let valueWei := parseHexNat log.data
    match env.getTransaction log.transactionHash with
    | none => none
    | some tx =>
      let txFrom := env.getAddress tx.fromAddr
      some { txHash := log.transactionHash,
             logIndex := log.index,
             blockNumber := log.blockNumber,
             tokenSymbol := token.symbol,
             tokenAddress := token.address,
             treasury := transferTo,
             proxyUsed := PROXY_ADDRESSES.contains (toLowerStr transferFrom),
             txFrom := txFrom,
             transferFrom := transferFrom,
             transferTo := transferTo,
             contributor := computeContributor env transferFrom txFrom,
             amountRaw := toString valueWei,
             amountFormatted := formatUnits valueWei token.decimals }

/-- Effect of one processed log on the per-token totals map alone. -/
def totalsStep (env : Env) (m : List (String × Nat)) (log : RawLog) : List (String × Nat) :=
  match tokenAddrMap.lookup (toLowerStr log.address) with
  | none => m
  | some token =>
    match env.getTransaction log.transactionHash with
    | none => m
    | some _ => setTotal m token.symbol (getTotal m token.symbol + parseHexNat log.data)

/-- Effect of one processed log on the record counter alone. -/
def countStep (env : Env) (log : RawLog) : Nat :=
  match tokenAddrMap.lookup (toLowerStr log.address) with
  | none => 0
  | some _ =>
    match env.getTransaction log.transactionHash with
    | none => 0
    | some _ => if env.dbError log.transactionHash log.index then 0 else 1

/-- Effect of one processed log on the persisted store alone. -/
def storeStep (env : Env) (s : List TransferRecord) (log : RawLog) : List TransferRecord :=
  match logRecord env log with
  | none => s
  | some r => if env.dbError log.transactionHash log.index then s else upsert s r

/-- Logs effectively processed for one batch: none if any window's
fetch fails, otherwise all windows' logs in window order. -/
def batchLogs (env : Env) (batch : List BlockRange) : List RawLog :=
  match fetchBatch env batch with
  | Except.error _ => []
  | Except.ok results => results.flatten

/-- Logs effectively processed by a whole `indexRange` invocation. -/
def runLogs (env : Env) (fromBlock toBlock : Int) : List RawLog :=
  ((chunkArray (buildRangesForward fromBlock toBlock BLOCK_SPAN) MAX_CONCURRENCY).map
    (batchLogs env)).flatten

lemma processLog_decomp (env : Env) (st : RunState) (log : RawLog) :
    processLog env st log =
      { totalWeiByToken := totalsStep env st.totalWeiByToken log,
        totalRecords := st.totalRecords + countStep env log,
        store := storeStep env st.store log } := by
  unfold processLog totalsStep countStep storeStep logRecord
  cases htok : tokenAddrMap.lookup (toLowerStr log.address) with
  | none => simp
  | some token =>
    cases htx : env.getTransaction log.transactionHash with
    | none => simp
    | some tx =>
      cases hdb : env.dbError log.transactionHash log.index with
      | false => simp [hdb]
      | true => simp [hdb]

lemma foldl_processLog_totals (env : Env) (L : List RawLog) :
    ∀ st : RunState, (L.foldl (processLog env) st).totalWeiByToken
      = L.foldl (totalsStep env) st.totalWeiByToken := by
  induction L with
  | nil => intro st; rfl
  | cons l ls ih =>
    intro st
    simp only [List.foldl_cons]
    rw [ih, processLog_decomp]

lemma foldl_processLog_store (env : Env) (L : List RawLog) :
    ∀ st : RunState, (L.foldl (processLog env) st).store
      = L.foldl (storeStep env) st.store := by
  induction L with
  | nil => intro st; rfl
  | cons l ls ih =>
    intro st
    simp only [List.foldl_cons]
    rw [ih, processLog_decomp]

lemma foldl_processLog_count (env : Env) (L : List RawLog) :
    ∀ st : RunState, (L.foldl (processLog env) st).totalRecords
      = st.totalRecords + (L.map (countStep env)).sum := by
  induction L with
  | nil => intro st; simp
  | cons l ls ih =>
    intro st
    simp only [List.foldl_cons, List.map_cons, List.sum_cons]
    rw [ih, processLog_decomp]
    simp [Nat.add_assoc]

lemma foldl_foldl_flatten (g : β → RawLog → β) (L : List (List RawLog)) :
    ∀ a : β, L.foldl (fun acc l => l.foldl g acc) a = (L.flatten).foldl g a := by
  induction L with
  | nil => intro a; rfl
  | cons l ls ih => intro a; simp [List.foldl_append, ih]

lemma processBatch_eq (env : Env) (st : RunState) (batch : List BlockRange) :
    processBatch env st batch = (batchLogs env batch).foldl (processLog env) st := by
  unfold processBatch batchLogs
  cases fetchBatch env batch with
  | error e => rfl
  | ok results => exact foldl_foldl_flatten (processLog env) results st

lemma foldl_processBatch_eq (env : Env) (bs : List (List BlockRange)) :
    ∀ st : RunState, bs.foldl (processBatch env) st
      = ((bs.map (batchLogs env)).flatten).foldl (processLog env) st := by
  induction bs with
  | nil => intro st; rfl
  | cons b rest ih =>
    intro st
    simp only [List.foldl_cons, List.map_cons, List.flatten_cons, List.foldl_append]
    rw [ih, processBatch_eq]

lemma indexRange_eq (env : Env) (store0 : List TransferRecord) (f t : Int) :
    indexRange env store0 f t = (runLogs env f t).foldl (processLog env)
      { totalWeiByToken := [], totalRecords := 0, store := store0 } := by
  unfold indexRange runLogs
  exact foldl_processBatch_eq env _ _

/-- Key uniqueness of a store: no two records share `(txHash, logIndex)`. -/
def UniqueKeys (s : List TransferRecord) : Prop :=
  List.Pairwise (fun a b => ¬(a.txHash = b.txHash ∧ a.logIndex = b.logIndex)) s

lemma upsert_eq_of_hasKey (s : List TransferRecord) (r : TransferRecord)
    (h : hasKey s r.txHash r.logIndex = true) : upsert s r = s := by
  simp [upsert, h]

lemma upsert_eq_of_not_hasKey (s : List TransferRecord) (r : TransferRecord)
    (h : hasKey s r.txHash r.logIndex = false) : upsert s r = s ++ [r] := by
  simp [upsert, h]

lemma storeStep_of_none (env : Env) (s : List TransferRecord) (log : RawLog)
    (h : logRecord env log = none) : storeStep env s log = s := by
  simp [storeStep, h]

lemma storeStep_of_dbError (env : Env) (s : List TransferRecord) (log : RawLog)
    (r : TransferRecord) (h : logRecord env log = some r)
    (hdb : env.dbError log.transactionHash log.index = true) : storeStep env s log = s := by
  simp [storeStep, h, hdb]

lemma storeStep_of_ok (env : Env) (s : List TransferRecord) (log : RawLog)
    (r : TransferRecord) (h : logRecord env log = some r)
    (hdb : env.dbError log.transactionHash log.index = false) :
    storeStep env s log = upsert s r := by
  simp [storeStep, h, hdb]

lemma hasKey_upsert_self (s : List TransferRecord) (r : TransferRecord) :
    hasKey (upsert s r) r.txHash r.logIndex = true := by
  cases h : hasKey s r.txHash r.logIndex with
  | true => rw [upsert_eq_of_hasKey s r h]; exact h
  | false =>
    rw [upsert_eq_of_not_hasKey s r h]
    simp [hasKey, List.any_append]

lemma hasKey_mono_upsert (s : List TransferRecord) (r : TransferRecord) (k : String) (i : Nat)
    (h : hasKey s k i = true) : hasKey (upsert s r) k i = true := by
  cases hk : hasKey s r.txHash r.logIndex with
  | true => rw [upsert_eq_of_hasKey s r hk]; exact h
  | false =>
    rw [upsert_eq_of_not_hasKey s r hk]
    unfold hasKey at *
    simp [List.any_append]
    simp at h
    exact Or.inl h

lemma hasKey_mono_storeStep (env : Env) (s : List TransferRecord) (log : RawLog)
    (k : String) (i : Nat) (h : hasKey s k i = true) :
    hasKey (storeStep env s log) k i = true := by
  cases hrec : logRecord env log with
  | none => rw [storeStep_of_none env s log hrec]; exact h
  | some r =>
    cases hdb : env.dbError log.transactionHash log.index with
    | true => rw [storeStep_of_dbError env s log r hrec hdb]; exact h
    | false =>
      rw [storeStep_of_ok env s log r hrec hdb]
      exact hasKey_mono_upsert s r k i h

lemma hasKey_mono_fold (env : Env) (L : List RawLog) :
    ∀ (s : List TransferRecord) (k : String) (i : Nat), hasKey s k i = true →
      hasKey (L.foldl (storeStep env) s) k i = true := by
  induction L with
  | nil => intro s k i h; exact h
  | cons l ls ih =>
    intro s k i h
    simp only [List.foldl_cons]
    exact ih _ k i (hasKey_mono_storeStep env s l k i h)

lemma fold_hasKey_of_mem (env : Env) (L : List RawLog) :
    ∀ (s : List TransferRecord) (log : RawLog) (r : TransferRecord), log ∈ L →
      logRecord env log = some r → env.dbError log.transactionHash log.index = false →
      hasKey (L.foldl (storeStep env) s) r.txHash r.logIndex = true := by
  induction L with
  | nil => intro s log r h; exact absurd h (List.not_mem_nil log)
  | cons l ls ih =>
    intro s log r hmem hrec hdb
    simp only [List.foldl_cons]
    rcases List.mem_cons.mp hmem with heq | hmem2
    · subst heq
      apply hasKey_mono_fold
      rw [storeStep_of_ok env s log r hrec hdb]
      exact hasKey_upsert_self s r
    · exact ih _ log r hmem2 hrec hdb

lemma storeStep_noop (env : Env) (s : List TransferRecord) (log : RawLog)
    (h : ∀ r : TransferRecord, logRecord env log = some r →
      env.dbError log.transactionHash log.index = false →
      hasKey s r.txHash r.logIndex = true) :
    storeStep env s log = s := by
  cases hrec : logRecord env log with
  | none => exact storeStep_of_none env s log hrec
  | some r =>
    cases hdb : env.dbError log.transactionHash log.index with
    | true => exact storeStep_of_dbError env s log r hrec hdb
    | false =>
      rw [storeStep_of_ok env s log r hrec hdb]
      exact upsert_eq_of_hasKey s r (h r hrec hdb)

lemma fold_storeStep_noop (env : Env) (L : List RawLog) :
    ∀ s : List TransferRecord,
      (∀ log ∈ L, ∀ r : TransferRecord, logRecord env log = some r →
        env.dbError log.transactionHash log.index = false →
        hasKey s r.txHash r.logIndex = true) →
      L.foldl (storeStep env) s = s := by
  induction L with
  | nil => intro s _; rfl
  | cons l ls ih =>
    intro s h
    have h1 : storeStep env s l = s :=
      storeStep_noop env s l (fun r hrec hdb => h l (List.mem_cons_self l ls) r hrec hdb)
    simp only [List.foldl_cons, h1]
    exact ih s (fun log hmem r hrec hdb => h log (List.mem_cons_of_mem l hmem) r hrec hdb)

lemma fold_storeStep_idem (env : Env) (L : List RawLog) (s : List TransferRecord) :
    L.foldl (storeStep env) (L.foldl (storeStep env) s) = L.foldl (storeStep env) s :=
  fold_storeStep_noop env L (L.foldl (storeStep env) s)
    (fun log hmem r hrec hdb => fold_hasKey_of_mem env L s log r hmem hrec hdb)

lemma upsert_uniqueKeys (s : List TransferRecord) (r : TransferRecord)
    (hu : UniqueKeys s) : UniqueKeys (upsert s r) := by
  cases h : hasKey s r.txHash r.logIndex with
  | true => rw [upsert_eq_of_hasKey s r h]; exact hu
  | false =>
    rw [upsert_eq_of_not_hasKey s r h]
    unfold UniqueKeys
    rw [List.pairwise_append]
    refine ⟨hu, List.pairwise_singleton _ _, ?_⟩
    intro a ha b hb
    have hb2 : b = r := by simpa using hb
    subst hb2
    intro hab
    unfold hasKey at h
    rw [List.any_eq_false] at h
    have := h a ha
    simp [hab.1, hab.2] at this

lemma storeStep_uniqueKeys (env : Env) (s : List TransferRecord) (log : RawLog)
    (hu : UniqueKeys s) : UniqueKeys (storeStep env s log) := by
  cases hrec : logRecord env log with
  | none => rw [storeStep_of_none env s log hrec]; exact hu
  | some r =>
    cases hdb : env.dbError log.transactionHash log.index with
    | true => rw [storeStep_of_dbError env s log r hrec hdb]; exact hu
    | false =>
      rw [storeStep_of_ok env s log r hrec hdb]
      exact upsert_uniqueKeys s r hu

lemma fold_storeStep_uniqueKeys (env : Env) (L : List RawLog) :
    ∀ s : List TransferRecord, UniqueKeys s → UniqueKeys (L.foldl (storeStep env) s) := by
  induction L with
  | nil => intro s hu; exact hu
  | cons l ls ih =>
    intro s hu
    simp only [List.foldl_cons]
    exact ih _ (storeStep_uniqueKeys env s l hu)

lemma storeStep_append (env : Env) (s : List TransferRecord) (log : RawLog) :
    ∃ added, storeStep env s log = s ++ added := by
  cases hrec : logRecord env log with
  | none => exact ⟨[], by rw [storeStep_of_none env s log hrec]; simp⟩
  | some r =>
    cases hdb : env.dbError log.transactionHash log.index with
    | true => exact ⟨[], by rw [storeStep_of_dbError env s log r hrec hdb]; simp⟩
    | false =>
      cases hk : hasKey s r.txHash r.logIndex with
      | true =>
        exact ⟨[], by rw [storeStep_of_ok env s log r hrec hdb, upsert_eq_of_hasKey s r hk]; simp⟩
      | false =>
        exact ⟨[r], by rw [storeStep_of_ok env s log r hrec hdb, upsert_eq_of_not_hasKey s r hk]⟩

lemma fold_storeStep_append (env : Env) (L : List RawLog) :
    ∀ s : List TransferRecord, ∃ added, L.foldl (storeStep env) s = s ++ added := by
  induction L with
  | nil => intro s; exact ⟨[], by simp⟩
  | cons l ls ih =>
    intro s
    obtain ⟨a1, h1⟩ := storeStep_append env s l
    obtain ⟨a2, h2⟩ := ih (storeStep env s l)
    refine ⟨a1 ++ a2, ?_⟩
    simp only [List.foldl_cons]
    rw [h2, h1, List.append_assoc]

lemma buildRangesGo_gt (t span : Int) (fuel : Nat) (start : Int) (h : t < start) :
    buildRangesGo t span fuel start = [] := by
  cases fuel with
  | zero => rfl
  | succ fuel =>
    unfold buildRangesGo
    rw [if_neg (by omega)]

lemma buildRangesGo_spec (t span : Int) (hs : 1 ≤ span) :
    ∀ (fuel : Nat) (start : Int), start ≤ t → (t + 1 - start).toNat ≤ fuel →
      (buildRangesGo t span fuel start).head?.map BlockRange.fromBlock = some start ∧
      (buildRangesGo t span fuel start).getLast?.map BlockRange.toBlock = some t ∧
      List.Chain' (fun a b => b.fromBlock = a.toBlock + 1) (buildRangesGo t span fuel start) ∧
      (∀ r ∈ (buildRangesGo t span fuel start).dropLast, r.toBlock - r.fromBlock + 1 = span) ∧
      (∀ r ∈ buildRangesGo t span fuel start,
        r.fromBlock ≤ r.toBlock ∧ start ≤ r.fromBlock ∧ r.toBlock ≤ t ∧
          r.toBlock - r.fromBlock + 1 ≤ span) ∧
      (buildRangesGo t span fuel start).length
        = ((t + 1 - start).toNat + (span.toNat - 1)) / span.toNat := by
  intro fuel
  induction fuel with
  | zero => intro start h1 h2; omega
  | succ fuel ih =>
    intro start h1 h2
    unfold buildRangesGo
    rw [if_pos h1]
    by_cases hcase : t ≤ start + span - 1
    · have hmin : min (start + span - 1) t = t := min_eq_right hcase
      rw [hmin]
      rw [buildRangesGo_gt t span fuel (t + 1) (by omega)]
      refine ⟨rfl, rfl, List.chain'_singleton _, ?_, ?_, ?_⟩
      · intro r hr
        simp [List.dropLast] at hr
      · intro r hr
        simp only [List.mem_singleton] at hr
        subst hr
        refine ⟨h1, le_refl _, le_refl _, ?_⟩
        show t - start + 1 ≤ span
        omega
      · have hn1 : 1 ≤ (t + 1 - start).toNat := by omega
        have hn2 : (t + 1 - start).toNat ≤ span.toNat := by omega
        have hlen : ([{ fromBlock := start, toBlock := t }] : List BlockRange).length = 1 := rfl
        rw [hlen]
        symm
        apply Nat.div_eq_of_lt_le <;> omega
    · have hmin : min (start + span - 1) t = start + span - 1 := min_eq_left (by omega)
      rw [hmin]
      have hnext : start + span - 1 + 1 = start + span := by ring
      rw [hnext]
      obtain ⟨ihead, ilast, ichain, idrop, ivalid, ilen⟩ :=
        ih (start + span) (by omega) (by omega)
      obtain ⟨b, T', hbT⟩ :=
        List.exists_cons_of_ne_nil (l := buildRangesGo t span fuel (start + span))
          (by intro hnil; rw [hnil] at ihead; simp at ihead)
      have hbFrom : b.fromBlock = start + span := by
        rw [hbT] at ihead
        simpa using ihead
      refine ⟨rfl, ?_, ?_, ?_, ?_, ?_⟩
      · rw [hbT]
        rw [hbT] at ilast
        simpa [List.getLast?] using ilast
      · rw [List.chain'_cons']
        refine ⟨?_, ichain⟩
        intro y hy
        rw [hbT] at hy
        simp at hy
        subst hy
        simp only [hbFrom]
        omega
      · intro r hr
        rw [hbT] at hr idrop
        simp only [List.dropLast, List.mem_cons] at hr
        rcases hr with heq | hmem
        · subst heq; simp; omega
        · exact idrop r (by simpa [List.dropLast] using hmem)
      · intro r hr
        simp only [List.mem_cons] at hr
        rcases hr with heq | hmem
        · subst heq
          refine ⟨?_, ?_, ?_, ?_⟩
          · show start ≤ start + span - 1
            omega
          · show start ≤ start
            omega
          · show start + span - 1 ≤ t
            omega
          · show start + span - 1 - start + 1 ≤ span
            omega
        · obtain ⟨v1, v2, v3, v4⟩ := ivalid r hmem
          exact ⟨v1, by omega, v3, v4⟩
      · simp only [List.length_cons]
        rw [ilen]
        have hsplit : (t + 1 - start).toNat = (t + 1 - (start + span)).toNat + span.toNat := by
          omega
        rw [hsplit]
        have : (t + 1 - (start + span)).toNat + span.toNat + (span.toNat - 1)
            = ((t + 1 - (start + span)).toNat + (span.toNat - 1)) + span.toNat := by omega
        rw [this, Nat.add_div_right _ (by omega : 0 < span.toNat)]

/-- Claim C1: for every pair of integers `from ≤ to` and every span ≥ 1,
the windows produced by `buildRangesForward` are nonempty, start at
`from`, are contiguous (each next window starts one past the previous
window's end, hence ordered and non-overlapping), end at `to`, every
window except possibly the last spans exactly `span` blocks and every
window is nonempty, within `[from,to]` and at most `span` blocks (hence
the sequence covers `[from,to]` exactly once), the number of windows is
`ceil((to - from + 1) / span)`, and for `from = to` the result is the
single one-block window `[from, from]`. -/
theorem c1_rangePlanner (f t span : Int) (hft : f ≤ t) (hs : 1 ≤ span) :
    buildRangesForward f t span ≠ [] ∧
    (buildRangesForward f t span).head?.map BlockRange.fromBlock = some f ∧
    (buildRangesForward f t span).getLast?.map BlockRange.toBlock = some t ∧
    List.Chain' (fun a b => b.fromBlock = a.toBlock + 1) (buildRangesForward f t span) ∧
    (∀ r ∈ (buildRangesForward f t span).dropLast, r.toBlock - r.fromBlock + 1 = span) ∧
    (∀ r ∈ buildRangesForward f t span,
      r.fromBlock ≤ r.toBlock ∧ f ≤ r.fromBlock ∧ r.toBlock ≤ t ∧
        r.toBlock - r.fromBlock + 1 ≤ span) ∧
    (buildRangesForward f t span).length
      = ((t - f + 1).toNat + (span.toNat - 1)) / span.toNat ∧
    (f = t → buildRangesForward f t span = [{ fromBlock := f, toBlock := f }]) := by
  obtain ⟨h1, h2, h3, h4, h5, h6⟩ :=
    buildRangesGo_spec t span hs ((t + 1 - f).toNat) f hft (le_refl _)
  have hne : buildRangesForward f t span ≠ [] := by
    intro hnil
    unfold buildRangesForward at hnil
    rw [hnil] at h1
    simp at h1
  refine ⟨hne, h1, h2, h3, h4, h5, ?_, ?_⟩
  · show (buildRangesGo t span ((t + 1 - f).toNat) f).length = _
    rw [h6]
    congr 2
    omega
  · intro heq
    subst heq
    have hlen1 : (buildRangesForward f f span).length = 1 := by
      show (buildRangesGo f span ((f + 1 - f).toNat) f).length = 1
      rw [h6]
      have e1 : (f + 1 - f).toNat = 1 := by omega
      rw [e1]
      have e2 : 1 + (span.toNat - 1) = span.toNat := by omega
      rw [e2]
      exact Nat.div_self (by omega)
    obtain ⟨r, hr⟩ := List.length_eq_one.mp hlen1
    have hrf : r.fromBlock = f := by
      have := h1
      rw [show buildRangesGo f span ((f + 1 - f).toNat) f = buildRangesForward f f span from rfl,
        hr] at this
      simpa using this
    have hrt : r.toBlock = f := by
      have := h2
      rw [show buildRangesGo f span ((f + 1 - f).toNat) f = buildRangesForward f f span from rfl,
        hr] at this
      simpa using this
    rw [hr]
    cases r
    simp at hrf hrt
    rw [hrf, hrt]

/-- Claim C7 (counterexample to the claim as stated): called with
`from > to` the range planner does not reject the input with an error;
it returns the empty window sequence (the source's `while` loop body
never runs and the empty array is returned). -/
theorem c7_counterexample : buildRangesForward 5 3 400 = [] := by decide

/-- Claim C7 (amended): for every call with `from > to`, the range
planner returns the empty window sequence (no error is raised, and
downstream the run therefore processes no batches). -/
theorem c7_emptyOnReversed (f t span : Int) (h : t < f) :
    buildRangesForward f t span = [] := by
  unfold buildRangesForward
  rw [show (t + 1 - f).toNat = 0 from by omega]
  rfl

/-- Claim C7 witness: the amended theorem applied at the concrete
reversed range `from = 7 > 2 = to`. -/
theorem c7_emptyOnReversed_witness :
    (2 : Int) < 7 ∧ buildRangesForward 7 2 400 = [] :=
  ⟨by decide, c7_emptyOnReversed 7 2 400 (by decide)⟩

/-- Claim C8: a decoded transfer event (tracked token) whose transaction
lookup returns no result is skipped entirely: the run state — store,
per-token totals and record count — is unchanged by processing it. -/
theorem c8_missingTx (env : Env) (st : RunState) (log : RawLog) (token : TokenDescriptor)
    (htok : tokenAddrMap.lookup (toLowerStr log.address) = some token)
    (htx : env.getTransaction log.transactionHash = none) :
    processLog env st log = st := by
  unfold processLog
  rw [htok, htx]

/-- Claim C9: a raw log whose contract address is not in the tracked
token map (case-insensitive comparison) is silently dropped: no
transfer event or record is produced and the run state is unchanged. -/
theorem c9_untrackedToken (env : Env) (st : RunState) (log : RawLog)
    (h : ∀ tk ∈ TOKENS, toLowerStr tk.address ≠ toLowerStr log.address) :
    processLog env st log = st ∧ logRecord env log = none := by
  have h1 : toLowerStr ("0x97a9107c1793bc407d6f527b77e7fff4d812bece") ≠ toLowerStr log.address := by
    have := h { symbol := "AXS",
                address := "0x97a9107c1793bc407d6f527b77e7fff4d812bece",
                decimals := 18 } (by simp [TOKENS])
    exact this
  have h2 : toLowerStr ("0xc99a6a985ed2cac1ef41640596c5a5f9f4e19ef5") ≠ toLowerStr log.address := by
    have := h { symbol := "WETH",
                address := "0xc99a6a985ed2cac1ef41640596c5a5f9f4e19ef5",
                decimals := 18 } (by simp [TOKENS])
    exact this
  have hb1 : (toLowerStr log.address
      == toLowerStr ("0x97a9107c1793bc407d6f527b77e7fff4d812bece")) = false :=
    beq_eq_false_iff_ne.mpr (fun hc => h1 hc.symm)
  have hb2 : (toLowerStr log.address
      == toLowerStr ("0xc99a6a985ed2cac1ef41640596c5a5f9f4e19ef5")) = false :=
    beq_eq_false_iff_ne.mpr (fun hc => h2 hc.symm)
  have hlk : tokenAddrMap.lookup (toLowerStr log.address) = none := by
    simp only [tokenAddrMap, TOKENS, List.map_cons, List.map_nil, List.lookup]
    rw [hb1, hb2]
  constructor
  · unfold processLog
    rw [hlk]
  · unfold logRecord
    rw [hlk]

/-- Claim C1 witness: the planner theorem applied at the concrete range
`[0, 5]` with span 2. -/
theorem c1_rangePlanner_witness :
    (0 : Int) ≤ 5 ∧ (1 : Int) ≤ 2 ∧ buildRangesForward 0 5 2 ≠ [] :=
  ⟨by decide, by decide, (c1_rangePlanner 0 5 2 (by decide) (by decide)).1⟩

/-- Sample environment for the C8 witness: every transaction lookup
returns nothing. -/
def c8wEnv : Env :=
  { getAddress := fun s => s,
    ethersId := fun s => s,
    zeroPadValue := fun s _ => s,
    getLogs := fun _ => Except.ok [],
    getTransaction := fun _ => none,
    dbError := fun _ _ => false }

/-- Sample tracked-token log for the C8 witness. -/
def c8wLog : RawLog :=
  { address := "0x97a9107c1793bc407d6f527b77e7fff4d812bece",
    topics := ["0xsig", "0xaaa", "0xbbb"],
    data := "0x05",
    transactionHash := "0xdead",
    index := 3,
    blockNumber := 7 }

/-- Sample nontrivial run state reused by several witnesses. -/
def sampleState : RunState :=
  { totalWeiByToken := [("AXS", 1)], totalRecords := 1, store := [] }

/-- Claim C8 witness: the missing-transaction theorem applied at a
concrete tracked-token log whose transaction lookup returns nothing. -/
theorem c8_missingTx_witness : processLog c8wEnv sampleState c8wLog = sampleState :=
  c8_missingTx c8wEnv sampleState c8wLog
    { symbol := "AXS",
      address := "0x97a9107c1793bc407d6f527b77e7fff4d812bece",
      decimals := 18 }
    (by decide) rfl

/-- Sample log with an untracked contract address for the C9 witness. -/
def c9wLog : RawLog :=
  { address := "0x0000000000000000000000000000000000000001",
    topics := ["0xsig", "0xaaa", "0xbbb"],
    data := "0x05",
    transactionHash := "0xbeef",
    index := 0,
    blockNumber := 9 }

/-- Claim C9 witness: the untracked-token theorem applied at a concrete
log whose address is tracked by neither token. -/
theorem c9_untrackedToken_witness :
    processLog c8wEnv sampleState c9wLog = sampleState ∧ logRecord c8wEnv c9wLog = none :=
  c9_untrackedToken c8wEnv sampleState c9wLog (by decide)

lemma fetchBatch_error_of_mem (env : Env) (batch : List BlockRange)
    (h : ∃ r ∈ batch, isProviderError (env.getLogs (windowFilter env r)) = true) :
    ∃ e, fetchBatch env batch = Except.error e := by
  induction batch with
  | nil => simp at h
  | cons b rest ih =>
    obtain ⟨r, hmem, herr⟩ := h
    rcases List.mem_cons.mp hmem with heq | hmem2
    · subst heq
      unfold isProviderError at herr
      cases hg : env.getLogs (windowFilter env r) with
      | error e => exact ⟨e, by unfold fetchBatch; rw [hg]⟩
      | ok logs => rw [hg] at herr; simp at herr
    · obtain ⟨e, he⟩ := ih ⟨r, hmem2, herr⟩
      cases hg : env.getLogs (windowFilter env b) with
      | error e2 => exact ⟨e2, by unfold fetchBatch; rw [hg]⟩
      | ok logs => exact ⟨e, by unfold fetchBatch; rw [hg, he]⟩

/-- Claim C2 (amended): when the log fetch of at least one window of a
group fails with a provider error, the whole group is caught as a unit
and contributes nothing to the run state (also the non-failing windows
of that group produce no records), while all subsequent groups are
still processed exactly as if the failed group had produced nothing. -/
theorem c2_groupFailure (env : Env) (st : RunState) (batch : List BlockRange)
    (rest : List (List BlockRange))
    (h : ∃ r ∈ batch, isProviderError (env.getLogs (windowFilter env r)) = true) :
    processBatch env st batch = st ∧
    (batch :: rest).foldl (processBatch env) st = rest.foldl (processBatch env) st := by
  obtain ⟨e, he⟩ := fetchBatch_error_of_mem env batch h
  have h1 : processBatch env st batch = st := by
    unfold processBatch
    rw [he]
  exact ⟨h1, by simp only [List.foldl_cons, h1]⟩

/-- Sample good log (tracked AXS token, proxy sender topic, treasury
recipient topic, amount 10) returned by the non-failing window of the
C2 scenario. -/
def c2Log : RawLog :=
  { address := "0x97A9107C1793bc407d6f527b77e7fff4d812bece",
    topics := ["0xsig",
               "0x0000000000000000000000003b3adf1422f84254b7fbb0e7ca62bd0865133fe3",
               "0x000000000000000000000000245db945c485b68fdc429e4f7085a1761aa4d45d"],
    data := "0x0a",
    transactionHash := "0xt1",
    index := 0,
    blockNumber := 450 }

/-- Environment for the C2 counterexample: the first window's fetch
fails with a provider error, the second window's fetch returns one good
log; both windows are in the same concurrency group. -/
def c2envFail : Env :=
  { getAddress := fun s => s,
    ethersId := fun s => s,
    zeroPadValue := fun s _ => s,
    getLogs := fun fl => if fl.fromBlock = 0 then Except.error ("rate limited")
               else Except.ok ([c2Log]),
    getTransaction := fun _ => some { fromAddr := "0xSENDER" },
    dbError := fun _ _ => false }

/-- Same environment except the first window's fetch succeeds with no
logs. -/
def c2envOk : Env :=
  { getAddress := fun s => s,
    ethersId := fun s => s,
    zeroPadValue := fun s _ => s,
    getLogs := fun fl => if fl.fromBlock = 0 then Except.ok ([])
               else Except.ok ([c2Log]),
    getTransaction := fun _ => some { fromAddr := "0xSENDER" },
    dbError := fun _ _ => false }

/-- Claim C2 counterexample (the claim as stated is false): over the
range `[0, 799]` (two windows, one concurrency group), when window 1's
fetch fails the remaining window 2 of the same group does NOT have its
log processed — the run produces no records at all — although with
window 1 merely returning no logs the very same window 2 produces its
record. -/
theorem c2_counterexample :
    (indexRange c2envFail [] 0 799).totalRecords = 0 ∧
    (indexRange c2envFail [] 0 799).store = [] ∧
    (indexRange c2envOk [] 0 799).totalRecords = 1 := by
  refine ⟨by decide, by decide, by decide⟩

/-- Window of the C2 witness group whose fetch fails. -/
def c2wRange : BlockRange := { fromBlock := 0, toBlock := 399 }

/-- Claim C2 witness: the amended group-failure theorem applied to a
concrete one-window group whose fetch fails. -/
theorem c2_groupFailure_witness :
    processBatch c2envFail sampleState [c2wRange] = sampleState ∧
    ([c2wRange] :: []).foldl (processBatch c2envFail) sampleState
      = List.foldl (processBatch c2envFail) sampleState [] :=
  c2_groupFailure c2envFail sampleState [c2wRange] [] ⟨c2wRange, by decide, by decide⟩

lemma getTotal_setTotal (m : List (String × Nat)) (sym : String) (v : Nat) :
    getTotal (setTotal m sym v) sym = v := by
  induction m with
  | nil => simp [setTotal, getTotal, List.lookup]
  | cons kv rest ih =>
    obtain ⟨k, x⟩ := kv
    by_cases h : k = sym
    · subst h
      simp [setTotal, getTotal, List.lookup]
    · have hb : (sym == k) = false := beq_eq_false_iff_ne.mpr (fun hc => h hc.symm)
      simp only [setTotal, if_neg h, getTotal, List.lookup, hb]
      exact ih

/-- Claim C3 (amended): for every processed transfer event (tracked
token, transaction found), the per-token running total is increased by
the raw amount unconditionally — before and regardless of the ledger
write's outcome — while the record count is increased by one whenever
the persistence call does not fail, including when the
`(txHash, logIndex)` key conflicts and nothing is inserted; on a
persistence error the record count and the store are unchanged (but
the total has still been increased). -/
theorem c3_totalsAndCount (env : Env) (st : RunState) (log : RawLog)
    (token : TokenDescriptor) (tx : Tx) (r : TransferRecord)
    (htok : tokenAddrMap.lookup (toLowerStr log.address) = some token)
    (htx : env.getTransaction log.transactionHash = some tx)
    (hr : logRecord env log = some r) :
    getTotal (processLog env st log).totalWeiByToken token.symbol
      = getTotal st.totalWeiByToken token.symbol + parseHexNat log.data ∧
    (env.dbError log.transactionHash log.index = false →
      (processLog env st log).totalRecords = st.totalRecords + 1 ∧
      (processLog env st log).store = upsert st.store r) ∧
    (env.dbError log.transactionHash log.index = true →
      (processLog env st log).totalRecords = st.totalRecords ∧
      (processLog env st log).store = st.store) := by
  rw [processLog_decomp]
  refine ⟨?_, ?_, ?_⟩
  · show getTotal (totalsStep env st.totalWeiByToken log) token.symbol = _
    unfold totalsStep
    rw [htok, htx]
    exact getTotal_setTotal _ _ _
  · intro hdb
    constructor
    · show st.totalRecords + countStep env log = st.totalRecords + 1
      unfold countStep
      rw [htok, htx, hdb]
      simp
    · show storeStep env st.store log = upsert st.store r
      exact storeStep_of_ok env st.store log r hr hdb
  · intro hdb
    constructor
    · show st.totalRecords + countStep env log = st.totalRecords
      unfold countStep
      rw [htok, htx, hdb]
      simp
    · show storeStep env st.store log = st.store
      exact storeStep_of_dbError env st.store log r hr hdb

/-- Log for the C3 counterexample whose `(txHash, logIndex)` key is
already persisted before the run. -/
def c3Log : RawLog :=
  { address := "0x97a9107c1793bc407d6f527b77e7fff4d812bece",
    topics := ["0xsig",
               "0x0000000000000000000000001111111111111111111111111111111111111111",
               "0x000000000000000000000000245db945c485b68fdc429e4f7085a1761aa4d45d"],
    data := "0x0a",
    transactionHash := "0xc3",
    index := 0,
    blockNumber := 0 }

/-- Environment for the C3 counterexample: one window, one log, no
failures. -/
def c3env : Env :=
  { getAddress := fun s => s,
    ethersId := fun s => s,
    zeroPadValue := fun s _ => s,
    getLogs := fun _ => Except.ok ([c3Log]),
    getTransaction := fun _ => some { fromAddr := "0xS3" },
    dbError := fun _ _ => false }

/-- Pre-existing record with the same key as `c3Log`. -/
def c3OldRec : TransferRecord :=
  { txHash := "0xc3",
    logIndex := 0,
    blockNumber := 0,
    tokenSymbol := "AXS",
    tokenAddress := "0x97a9107c1793bc407d6f527b77e7fff4d812bece",
    treasury := "0xold",
    proxyUsed := false,
    txFrom := "0xold",
    transferFrom := "0xold",
    transferTo := "0xold",
    contributor := "0xold",
    amountRaw := "999",
    amountFormatted := "0.000000000000000999" }

/-- Claim C3 counterexample (the claim as stated is false): over the
range `[0, 0]`, with the log's key already persisted, the ledger write
hits a key conflict and inserts nothing (the store is unchanged), yet
the per-token total is still increased by the raw amount and the record
count is still increased by one. -/
theorem c3_counterexample :
    (indexRange c3env [c3OldRec] 0 0).store = [c3OldRec] ∧
    getTotal (indexRange c3env [c3OldRec] 0 0).totalWeiByToken ("AXS") = 10 ∧
    (indexRange c3env [c3OldRec] 0 0).totalRecords = 1 := by
  refine ⟨by decide, by decide, by decide⟩

/-- Environment for the C3 witness: constant checksum function, no
failures. -/
def c3wEnv : Env :=
  { getAddress := fun _ => "A",
    ethersId := fun s => s,
    zeroPadValue := fun s _ => s,
    getLogs := fun _ => Except.ok ([]),
    getTransaction := fun _ => some { fromAddr := "0xS" },
    dbError := fun _ _ => false }

/-- Tracked-token log for the C3 witness. -/
def c3wLog : RawLog :=
  { address := "0x97a9107c1793bc407d6f527b77e7fff4d812bece",
    topics := ["s", "t1", "t2"],
    data := "0x0a",
    transactionHash := "0xw3",
    index := 2,
    blockNumber := 5 }

/-- Record produced by processing `c3wLog` under `c3wEnv`. -/
def c3wRec : TransferRecord :=
  { txHash := "0xw3",
    logIndex := 2,
    blockNumber := 5,
    tokenSymbol := "AXS",
    tokenAddress := "0x97a9107c1793bc407d6f527b77e7fff4d812bece",
    treasury := "A",
    proxyUsed := false,
    txFrom := "A",
    transferFrom := "A",
    transferTo := "A",
    contributor := "A",
    amountRaw := "10",
    amountFormatted := "0.00000000000000001" }

/-- Claim C3 witness: the amended totals-and-count theorem applied at a
concrete processed log with a successful write. -/
theorem c3_totalsAndCount_witness :
    getTotal (processLog c3wEnv sampleState c3wLog).totalWeiByToken ("AXS")
      = getTotal sampleState.totalWeiByToken ("AXS") + parseHexNat c3wLog.data ∧
    (processLog c3wEnv sampleState c3wLog).totalRecords = sampleState.totalRecords + 1 ∧
    (processLog c3wEnv sampleState c3wLog).store = upsert sampleState.store c3wRec := by
  have h := c3_totalsAndCount c3wEnv sampleState c3wLog
    { symbol := "AXS",
      address := "0x97a9107c1793bc407d6f527b77e7fff4d812bece",
      decimals := 18 }
    { fromAddr := "0xS" } c3wRec (by decide) rfl (by decide)
  exact ⟨h.1, (h.2.1 rfl).1, (h.2.1 rfl).2⟩

/-- Claim C4: re-running the whole pipeline over the same range against
the store produced by the first run leaves the persisted store exactly
as after the first run, reproduces the same per-token totals and the
same record count, and (starting from a key-unique store) never creates
two records with the same `(txHash, logIndex)` key. -/
theorem c4_rerunIdempotent (env : Env) (store0 : List TransferRecord) (f t : Int)
    (hu : UniqueKeys store0) :
    (indexRange env (indexRange env store0 f t).store f t).store
      = (indexRange env store0 f t).store ∧
    (indexRange env (indexRange env store0 f t).store f t).totalWeiByToken
      = (indexRange env store0 f t).totalWeiByToken ∧
    (indexRange env (indexRange env store0 f t).store f t).totalRecords
      = (indexRange env store0 f t).totalRecords ∧
    UniqueKeys (indexRange env store0 f t).store := by
  have hstore : ∀ s0 : List TransferRecord,
      (indexRange env s0 f t).store = (runLogs env f t).foldl (storeStep env) s0 := by
    intro s0
    rw [indexRange_eq, foldl_processLog_store]
  have htot : ∀ s0 : List TransferRecord,
      (indexRange env s0 f t).totalWeiByToken
        = (runLogs env f t).foldl (totalsStep env) [] := by
    intro s0
    rw [indexRange_eq, foldl_processLog_totals]
  have hcnt : ∀ s0 : List TransferRecord,
      (indexRange env s0 f t).totalRecords
        = ((runLogs env f t).map (countStep env)).sum := by
    intro s0
    rw [indexRange_eq, foldl_processLog_count]
    simp
  refine ⟨?_, ?_, ?_, ?_⟩
  · rw [hstore store0, hstore ((runLogs env f t).foldl (storeStep env) store0)]
    exact fold_storeStep_idem env (runLogs env f t) store0
  · rw [htot store0, htot ((indexRange env store0 f t).store)]
  · rw [hcnt store0, hcnt ((indexRange env store0 f t).store)]
  · rw [hstore store0]
    exact fold_storeStep_uniqueKeys env (runLogs env f t) store0 hu

/-- Environment for the C4 witness: a single window returning one good
log. -/
def c4wEnv : Env :=
  { getAddress := fun s => s,
    ethersId := fun s => s,
    zeroPadValue := fun s _ => s,
    getLogs := fun _ => Except.ok
      ([{ address := "0x97a9107c1793bc407d6f527b77e7fff4d812bece",
          topics := ["0xsig",
                     "0x0000000000000000000000001111111111111111111111111111111111111111",
                     "0x000000000000000000000000245db945c485b68fdc429e4f7085a1761aa4d45d"],
          data := "0x0a",
          transactionHash := "0xc4",
          index := 0,
          blockNumber := 0 }]),
    getTransaction := fun _ => some { fromAddr := "0xS4" },
    dbError := fun _ _ => false }

/-- Claim C4 witness: the rerun-idempotence theorem applied at a
concrete one-log run starting from the empty store. -/
theorem c4_rerunIdempotent_witness :
    (indexRange c4wEnv (indexRange c4wEnv [] 0 0).store 0 0).store
      = (indexRange c4wEnv [] 0 0).store ∧
    (indexRange c4wEnv (indexRange c4wEnv [] 0 0).store 0 0).totalWeiByToken
      = (indexRange c4wEnv [] 0 0).totalWeiByToken ∧
    (indexRange c4wEnv (indexRange c4wEnv [] 0 0).store 0 0).totalRecords
      = (indexRange c4wEnv [] 0 0).totalRecords ∧
    UniqueKeys (indexRange c4wEnv [] 0 0).store :=
  c4_rerunIdempotent c4wEnv [] 0 0 List.Pairwise.nil

lemma proxy_ci_iff (x : String) :
    PROXY_ADDRESSES.contains (toLowerStr x) = true
      ↔ ∃ p ∈ PROXY_ADDRESSES, toLowerStr p = toLowerStr x := by
  have hlit : toLowerStr ("0x3b3adf1422f84254b7fbb0e7ca62bd0865133fe3")
      = "0x3b3adf1422f84254b7fbb0e7ca62bd0865133fe3" := by decide
  constructor
  · intro h
    simp only [PROXY_ADDRESSES, hlit, List.contains_cons, List.contains_nil,
      Bool.or_false, beq_iff_eq] at h
    refine ⟨toLowerStr ("0x3b3adf1422f84254b7fbb0e7ca62bd0865133fe3"),
      by simp [PROXY_ADDRESSES], ?_⟩
    rw [hlit, hlit]
    exact h.symm
  · rintro ⟨p, hp, hpx⟩
    simp only [PROXY_ADDRESSES, List.mem_cons, List.not_mem_nil, or_false] at hp
    subst hp
    rw [hlit] at hpx
    simp only [PROXY_ADDRESSES, hlit, List.contains_cons, List.contains_nil,
      Bool.or_false, beq_iff_eq]
    exact hpx.symm

/-- Claim C5: for every decoded transfer event with a found transaction
context, the produced record credits the transaction sender and sets
`proxyUsed` when the event's source address is a known proxy under
case-insensitive comparison, and otherwise carries the event's source
address verbatim as contributor with `proxyUsed` false.  (The
hypothesis on `getAddress` is the checksum function's idempotence,
which `ethers.getAddress` satisfies.) -/
theorem c5_attribution (env : Env) (log : RawLog) (r : TransferRecord)
    (hga : ∀ s, env.getAddress (env.getAddress s) = env.getAddress s)
    (hr : logRecord env log = some r) :
    ((∃ p ∈ PROXY_ADDRESSES, toLowerStr p = toLowerStr r.transferFrom) →
        r.contributor = r.txFrom ∧ r.proxyUsed = true) ∧
    ((¬∃ p ∈ PROXY_ADDRESSES, toLowerStr p = toLowerStr r.transferFrom) →
        r.contributor = r.transferFrom ∧ r.proxyUsed = false) := by
  unfold logRecord at hr
  cases htok : tokenAddrMap.lookup (toLowerStr log.address) with
  | none => rw [htok] at hr; simp at hr
  | some token =>
    rw [htok] at hr
    cases htx : env.getTransaction log.transactionHash with
    | none => rw [htx] at hr; simp at hr
    | some tx =>
      rw [htx] at hr
      simp only [Option.some.injEq] at hr
      subst hr
      constructor
      · intro hmem
        have hc : PROXY_ADDRESSES.contains
            (toLowerStr (topicToAddress env (log.topics.getD 1 ""))) = true :=
          (proxy_ci_iff _).mpr hmem
        constructor
        · show computeContributor env (topicToAddress env (log.topics.getD 1 ""))
            (env.getAddress tx.fromAddr) = env.getAddress tx.fromAddr
          unfold computeContributor
          simp only [hc, if_true]
          exact hga tx.fromAddr
        · show PROXY_ADDRESSES.contains
            (toLowerStr (topicToAddress env (log.topics.getD 1 ""))) = true
          exact hc
      · intro hmem
        have hc : PROXY_ADDRESSES.contains
            (toLowerStr (topicToAddress env (log.topics.getD 1 ""))) = false := by
          cases hcc : PROXY_ADDRESSES.contains
              (toLowerStr (topicToAddress env (log.topics.getD 1 ""))) with
          | false => rfl
          | true => exact absurd ((proxy_ci_iff _).mp hcc) hmem
        constructor
        · show computeContributor env (topicToAddress env (log.topics.getD 1 ""))
            (env.getAddress tx.fromAddr) = topicToAddress env (log.topics.getD 1 "")
          unfold computeContributor
          simp only [hc, Bool.false_eq_true, if_false]
        · show PROXY_ADDRESSES.contains
            (toLowerStr (topicToAddress env (log.topics.getD 1 ""))) = false
          exact hc

/-- Environment for the C5 witness: identity checksum function (which
is idempotent), transaction sender `0xS5`. -/
def c5wEnv : Env :=
  { getAddress := fun s => s,
    ethersId := fun s => s,
    zeroPadValue := fun s _ => s,
    getLogs := fun _ => Except.ok ([]),
    getTransaction := fun _ => some { fromAddr := "0xS5" },
    dbError := fun _ _ => false }

/-- Log for the C5 witness whose `topics[1]` decodes to the known proxy
address. -/
def c5wLog : RawLog :=
  { address := "0x97a9107c1793bc407d6f527b77e7fff4d812bece",
    topics := ["0xsig",
               "0x0000000000000000000000003b3adf1422f84254b7fbb0e7ca62bd0865133fe3",
               "0x000000000000000000000000245db945c485b68fdc429e4f7085a1761aa4d45d"],
    data := "0x0a",
    transactionHash := "0xw5",
    index := 1,
    blockNumber := 3 }

/-- Record produced by processing `c5wLog` under `c5wEnv`. -/
def c5wRec : TransferRecord :=
  { txHash := "0xw5",
    logIndex := 1,
    blockNumber := 3,
    tokenSymbol := "AXS",
    tokenAddress := "0x97a9107c1793bc407d6f527b77e7fff4d812bece",
    treasury := "0x245db945c485b68fdc429e4f7085a1761aa4d45d",
    proxyUsed := true,
    txFrom := "0xS5",
    transferFrom := "0x3b3adf1422f84254b7fbb0e7ca62bd0865133fe3",
    transferTo := "0x245db945c485b68fdc429e4f7085a1761aa4d45d",
    contributor := "0xS5",
    amountRaw := "10",
    amountFormatted := "0.00000000000000001" }

/-- Claim C5 witness: the attribution theorem applied at a concrete
proxy-sourced transfer, whose record credits the transaction sender. -/
theorem c5_attribution_witness :
    c5wRec.contributor = c5wRec.txFrom ∧ c5wRec.proxyUsed = true :=
  (c5_attribution c5wEnv c5wLog c5wRec (fun _ => rfl) (by decide)).1
    ⟨toLowerStr ("0x3b3adf1422f84254b7fbb0e7ca62bd0865133fe3"),
      by simp [PROXY_ADDRESSES], by decide⟩

/-- Claim C6 (amended): the ledger write is keyed by
`(txHash, logIndex)` — on a key conflict it performs no mutation of the
store, and across a whole run the store only ever grows by appending
new records, so a record once written is never updated or overwritten
by any later operation of the indexer.  (The write does not, however,
report `inserted = false` to its caller: a conflicting write is still
counted in the run's record count, see the counterexample.) -/
theorem c6_ledgerImmutable :
    (∀ (s : List TransferRecord) (r : TransferRecord),
        hasKey s r.txHash r.logIndex = true → upsert s r = s) ∧
    (∀ (env : Env) (s0 : List TransferRecord) (f t : Int),
        ∃ added, (indexRange env s0 f t).store = s0 ++ added) := by
  constructor
  · exact upsert_eq_of_hasKey
  · intro env s0 f t
    rw [indexRange_eq, foldl_processLog_store]
    exact fold_storeStep_append env (runLogs env f t) s0

/-- Log for the C6 counterexample (a WETH transfer) whose key is
already persisted before the run. -/
def c6Log : RawLog :=
  { address := "0xc99a6a985ed2cac1ef41640596c5a5f9f4e19ef5",
    topics := ["0xsig",
               "0x0000000000000000000000002222222222222222222222222222222222222222",
               "0x000000000000000000000000245db945c485b68fdc429e4f7085a1761aa4d45d"],
    data := "0x01",
    transactionHash := "0xc6",
    index := 4,
    blockNumber := 0 }

/-- Environment for the C6 counterexample. -/
def c6env : Env :=
  { getAddress := fun s => s,
    ethersId := fun s => s,
    zeroPadValue := fun s _ => s,
    getLogs := fun _ => Except.ok ([c6Log]),
    getTransaction := fun _ => some { fromAddr := "0xS6" },
    dbError := fun _ _ => false }

/-- Pre-existing record with the same key as `c6Log`. -/
def c6OldRec : TransferRecord :=
  { txHash := "0xc6",
    logIndex := 4,
    blockNumber := 0,
    tokenSymbol := "WETH",
    tokenAddress := "0xc99a6a985ed2cac1ef41640596c5a5f9f4e19ef5",
    treasury := "0xold6",
    proxyUsed := false,
    txFrom := "0xold6",
    transferFrom := "0xold6",
    transferTo := "0xold6",
    contributor := "0xold6",
    amountRaw := "7",
    amountFormatted := "0.000000000000000007" }

/-- Claim C6 counterexample (the claim as stated is false): on a key
conflict the write indeed performs no mutation (the stored record is
untouched), but it is not reported as `inserted = false` — the run
still counts the conflicting write as a stored record
(`totalRecords = 1`, not 0). -/
theorem c6_counterexample :
    (indexRange c6env [c6OldRec] 0 0).store = [c6OldRec] ∧
    (indexRange c6env [c6OldRec] 0 0).totalRecords = 1 := by
  refine ⟨by decide, by decide⟩

/-- Claim C6 witness: the no-mutation-on-conflict part applied at a
concrete store already holding the record's key. -/
theorem c6_ledgerImmutable_witness : upsert [c6OldRec] c6OldRec = [c6OldRec] :=
  c6_ledgerImmutable.1 [c6OldRec] c6OldRec (by decide)

/-- Log for the C10 scenario: `topics[2]` decodes to an address that is
not the configured treasury (the provider is not honoring the topic
filter here), `topics[1]` to a non-proxy address. -/
def c10Log : RawLog :=
  { address := "0x97a9107c1793bc407d6f527b77e7fff4d812bece",
    topics := ["0xsig",
               "0x0000000000000000000000001111111111111111111111111111111111111111",
               "0xffffffffffffffffffffffffffffffffffffffff"],
    data := "0x01",
    transactionHash := "0xa10",
    index := 0,
    blockNumber := 0 }

/-- Environment for the C10 scenario. -/
def c10env : Env :=
  { getAddress := fun s => s,
    ethersId := fun s => s,
    zeroPadValue := fun s _ => s,
    getLogs := fun _ => Except.ok ([c10Log]),
    getTransaction := fun _ => some { fromAddr := "0xS10" },
    dbError := fun _ _ => false }

/-- Record produced (and persisted) for `c10Log` under `c10env`. -/
def c10Rec : TransferRecord :=
  { txHash := "0xa10",
    logIndex := 0,
    blockNumber := 0,
    tokenSymbol := "AXS",
    tokenAddress := "0x97a9107c1793bc407d6f527b77e7fff4d812bece",
    treasury := "0xffffffffffffffffffffffffffffffffffffffff",
    proxyUsed := false,
    txFrom := "0xS10",
    transferFrom := "0x1111111111111111111111111111111111111111",
    transferTo := "0xffffffffffffffffffffffffffffffffffffffff",
    contributor := "0x1111111111111111111111111111111111111111",
    amountRaw := "1",
    amountFormatted := "0.000000000000000001" }

/-- Claim C10: the persisted `treasury` field is the checksummed address
decoded from the last 20 bytes of the log's `topics[2]` — identical to
the record's `transferTo` — and not the configured treasury constant:
the second part exhibits a run persisting a record whose `treasury`
differs from `TREASURY_ADDRESS`, showing the indexer never re-checks
the recipient against the configured treasury. -/
theorem c10_treasuryField :
    (∀ (env : Env) (log : RawLog) (r : TransferRecord), logRecord env log = some r →
        r.treasury = topicToAddress env (log.topics.getD 2 "") ∧ r.treasury = r.transferTo) ∧
    (∃ r : TransferRecord, logRecord c10env c10Log = some r ∧
        r.treasury ≠ TREASURY_ADDRESS ∧ (indexRange c10env [] 0 0).store = [r]) := by
  constructor
  · intro env log r hr
    unfold logRecord at hr
    cases htok : tokenAddrMap.lookup (toLowerStr log.address) with
    | none => rw [htok] at hr; simp at hr
    | some token =>
      rw [htok] at hr
      cases htx : env.getTransaction log.transactionHash with
      | none => rw [htx] at hr; simp at hr
      | some tx =>
        rw [htx] at hr
        simp only [Option.some.injEq] at hr
        subst hr
        exact ⟨rfl, rfl⟩
  · exact ⟨c10Rec, by decide, by decide, by decide⟩

/-- Claim C10 witness: the first part of the theorem applied at the
concrete log whose `topics[2]` does not decode to the configured
treasury. -/
theorem c10_treasuryField_witness :
    c10Rec.treasury = topicToAddress c10env (c10Log.topics.getD 2 "") ∧
    c10Rec.treasury = c10Rec.transferTo :=
  c10_treasuryField.1 c10env c10Log c10Rec (by decide)
